/-
  Verification development for the paperoni EPUB-generation core
  (src/epub.rs and its orchestration in src/main.rs).

  The document tree (kuchiki::NodeRef) is embedded as a rose tree of
  element/text nodes; mutation of attributes is embedded as a pure
  tree rewrite.  Machine integers are embedded as Nat with explicit
  reduction modulo 2^32 where overflow matters (the MD5 hash used by
  generate_header_ids).  Fallible operations are embedded as Option
  (none = panic) or as explicit outcome values.
-/
import Mathlib

namespace Paperoni

/-! ## MD5 (embedding of the `md5` crate, RFC 1321)

`generate_header_ids` computes `format!("_{:x}", md5::compute(text))`.
The digest is computed over the UTF-8 bytes of the text and printed as
32 lowercase hexadecimal digits. -/

namespace MD5

def M32 : Nat := 4294967296

def add32 (a b : Nat) : Nat := (a + b) % M32

def not32 (a : Nat) : Nat := Nat.xor a (M32 - 1)

def rotl32 (x s : Nat) : Nat :=
  ((x * 2 ^ s) % M32) ||| (x / 2 ^ (32 - s))

/-- Per-round shift amounts. -/
def S : List Nat :=
  [7, 12, 17, 22, 7, 12, 17, 22, 7, 12, 17, 22, 7, 12, 17, 22,
   5, 9, 14, 20, 5, 9, 14, 20, 5, 9, 14, 20, 5, 9, 14, 20,
   4, 11, 16, 23, 4, 11, 16, 23, 4, 11, 16, 23, 4, 11, 16, 23,
   6, 10, 15, 21, 6, 10, 15, 21, 6, 10, 15, 21, 6, 10, 15, 21]

/-- Round constants, K[i] = floor(2^32 * abs(sin(i+1))). -/
def K : List Nat :=
  [0xd76aa478, 0xe8c7b756, 0x242070db, 0xc1bdceee,
   0xf57c0faf, 0x4787c62a, 0xa8304613, 0xfd469501,
   0x698098d8, 0x8b44f7af, 0xffff5bb1, 0x895cd7be,
   0x6b901122, 0xfd987193, 0xa679438e, 0x49b40821,
   0xf61e2562, 0xc040b340, 0x265e5a51, 0xe9b6c7aa,
   0xd62f105d, 0x02441453, 0xd8a1e681, 0xe7d3fbc8,
   0x21e1cde6, 0xc33707d6, 0xf4d50d87, 0x455a14ed,
   0xa9e3e905, 0xfcefa3f8, 0x676f02d9, 0x8d2a4c8a,
   0xfffa3942, 0x8771f681, 0x6d9d6122, 0xfde5380c,
   0xa4beea44, 0x4bdecfa9, 0xf6bb4b60, 0xbebfbc70,
   0x289b7ec6, 0xeaa127fa, 0xd4ef3085, 0x04881d05,
   0xd9d4d039, 0xe6db99e5, 0x1fa27cf8, 0xc4ac5665,
   0xf4292244, 0x432aff97, 0xab9423a7, 0xfc93a039,
   0x655b59c3, 0x8f0ccc92, 0xffeff47d, 0x85845dd1,
   0x6fa87e4f, 0xfe2ce6e0, 0xa3014314, 0x4e0811a1,
   0xf7537e82, 0xbd3af235, 0x2ad7d2bb, 0xeb86d391]

/-- Little-endian 32-bit word `g` of a 64-byte block. -/
def mWord (block : List Nat) (g : Nat) : Nat :=
  block.getD (4 * g) 0 + 256 * block.getD (4 * g + 1) 0 +
    65536 * block.getD (4 * g + 2) 0 + 16777216 * block.getD (4 * g + 3) 0

def md5Step (block : List Nat) (st : Nat × Nat × Nat × Nat) (i : Nat) :
    Nat × Nat × Nat × Nat :=
  match st with
  | (a, b, c, d) =>
    let fg : Nat × Nat :=
      if i < 16 then ((b &&& c) ||| (not32 b &&& d), i)
      else if i < 32 then ((d &&& b) ||| (not32 d &&& c), (5 * i + 1) % 16)
      else if i < 48 then (Nat.xor b (Nat.xor c d), (3 * i + 5) % 16)
      else (Nat.xor c (b ||| not32 d), (7 * i) % 16)
    let tmp := add32 b
      (rotl32 (add32 (add32 (add32 a fg.1) (K.getD i 0)) (mWord block fg.2))
        (S.getD i 0))
    (d, tmp, b, c)

def processBlock (st : Nat × Nat × Nat × Nat) (block : List Nat) :
    Nat × Nat × Nat × Nat :=
  match (List.range 64).foldl (md5Step block) st with
  | (a, b, c, d) =>
    (add32 st.1 a, add32 st.2.1 b, add32 st.2.2.1 c, add32 st.2.2.2 d)

def chunks (l : List Nat) : List (List Nat) :=
  if h : l = [] then []
  else l.take 64 :: chunks (l.drop 64)
termination_by l.length
decreasing_by
  have hl : 0 < l.length := List.length_pos.mpr h
  simp only [List.length_drop]
  omega

/-- 8-byte little-endian encoding of the bit length. -/
def lenBytes (len : Nat) : List Nat :=
  let b := len * 8
  [b % 256, b / 256 % 256, b / 65536 % 256, b / 16777216 % 256,
   b / 4294967296 % 256, b / 1099511627776 % 256,
   b / 281474976710656 % 256, b / 72057594037927936 % 256]

def padMsg (msg : List Nat) : List Nat :=
  let len := msg.length
  let zeros := (119 - len % 64) % 64
  msg ++ [0x80] ++ List.replicate zeros 0 ++ lenBytes len

def le4 (w : Nat) : List Nat :=
  [w % 256, w / 256 % 256, w / 65536 % 256, w / 16777216 % 256]

/-- MD5 digest (16 bytes) of a byte sequence. -/
def md5Bytes (msg : List Nat) : List Nat :=
  match (chunks (padMsg msg)).foldl processBlock
      (0x67452301, 0xefcdab89, 0x98badcfe, 0x10325476) with
  | (a, b, c, d) => le4 a ++ le4 b ++ le4 c ++ le4 d

def hexDigit (n : Nat) : Char :=
  if n < 10 then Char.ofNat (48 + n) else Char.ofNat (87 + n)

def byteHex (b : Nat) : List Char := [hexDigit (b / 16), hexDigit (b % 16)]

end MD5

/-- UTF-8 bytes of a string (the `md5` crate hashes the UTF-8 bytes). -/
def utf8Bytes (s : String) : List Nat :=
  (s.data.flatMap String.utf8EncodeChar).map UInt8.toNat

/-- Lowercase hexadecimal MD5 digest of a string, as printed by
`format!("{:x}", md5::compute(text))`. -/
def md5Hex (s : String) : String :=
  ⟨(MD5.md5Bytes (utf8Bytes s)).flatMap MD5.byteHex⟩

/-! ## Document trees (embedding of kuchiki::NodeRef)

A node is an element (local name, attribute map, children) or a text
node.  kuchiki's attribute map is embedded as an association list;
`contains`/`get` are `List.lookup`, and `insert` of an absent key is
an append. -/

inductive Node where
  | text (s : String)
  | elem (name : String) (attrs : List (String × String)) (children : List Node)
deriving Repr

def Node.nodeName : Node → String
  | .text _ => "#text"
  | .elem n _ _ => n

def Node.nodeAttrs : Node → List (String × String)
  | .text _ => []
  | .elem _ a _ => a

/-- `attributes.get(key)` on a node. -/
def Node.attr (n : Node) (key : String) : Option String :=
  (n.nodeAttrs.lookup key)

/-- The four heading tags selected by `select("h1, h2, h3, h4")`. -/
def headerNames : List String := ["h1", "h2", "h3", "h4"]

/-- The `header_levels` HashMap of `get_header_level_toc_vec`. -/
def headerLevels : List (String × Int) :=
  [("h1", 1), ("h2", 2), ("h3", 3), ("h4", 4)]

mutual
/-- `text_contents()`: concatenation of all text descendants, in order. -/
def textContents : Node → String
  | .text s => s
  | .elem _ _ cs => textContentsList cs
def textContentsList : List Node → String
  | [] => ""
  | c :: cs => textContents c ++ textContentsList cs
end

mutual
/-- All h1..h4 elements in a subtree, in tree (preorder) order. -/
def selectFrom : Node → List Node
  | .text _ => []
  | .elem n attrs cs =>
    (if n ∈ headerNames then [Node.elem n attrs cs] else []) ++ selectFromList cs
def selectFromList : List Node → List Node
  | [] => []
  | c :: cs => selectFrom c ++ selectFromList cs
end

/-- `root.select("h1, h2, h3, h4")`: kuchiki iterates the strict
descendants of the node, in tree order. -/
def selectHeadings : Node → List Node
  | .text _ => []
  | .elem _ _ cs => selectFromList cs

mutual
/-- Embedding of `generate_header_ids` (src/epub.rs:261).  Every h1..h4
element that lacks an `id` attribute receives
`id = "_" ++ md5Hex(text_contents)`; elements that already carry an
`id` are not modified.  The in-place mutation is embedded as a pure
tree rewrite; inserting an id on one heading does not change any
heading's text, so visiting order is immaterial. -/
def generate_header_ids : Node → Node
  | .text s => .text s
  | .elem n attrs cs =>
    let attrs' :=
      if n ∈ headerNames ∧ (attrs.lookup "id").isNone then
        attrs ++ [("id", "_" ++ md5Hex (textContentsList cs))]
      else attrs
    .elem n attrs' (generate_header_ids_list cs)
def generate_header_ids_list : List Node → List Node
  | [] => []
  | c :: cs => generate_header_ids c :: generate_header_ids_list cs
end

/-! ## Metadata escaping (src/epub.rs:219) -/

/-- `str::replace` for a single-character pattern: every occurrence of
`pat` is replaced by `rep`, left to right. -/
def replace1 (pat : Char) (rep : List Char) : List Char → List Char
  | [] => []
  | c :: cs =>
    if c = pat then rep ++ replace1 pat rep cs
    else c :: replace1 pat rep cs

/-- Embedding of `replace_escaped_characters` (src/epub.rs:219):
`value.replace("&", "&amp;").replace("<", "&lt;").replace(">", "&gt;")`. -/
def replace_escaped_characters (value : String) : String :=
  ⟨replace1 '>' ['&', 'g', 't', ';']
    (replace1 '<' ['&', 'l', 't', ';']
      (replace1 '&' ['&', 'a', 'm', 'p', ';'] value.data))⟩

/-- Character-wise escaping; used to state what
`replace_escaped_characters` computes. -/
def escapeChar (c : Char) : List Char :=
  if c = '&' then ['&', 'a', 'm', 'p', ';']
  else if c = '<' then ['&', 'l', 't', ';']
  else if c = '>' then ['&', 'g', 't', ';']
  else [c]

/-! ## Table-of-contents elements

Modelled from the spec: the `TocElement` type and its `child`
attachment come from the external `epub_builder` crate, whose code is
not part of this repository (only its caller `get_header_level_toc_vec`
and that caller's tests are under src/).  Per §3 of the spec a TocNode
carries its originating heading level, a label, a target and ordered
children, with children nesting at strictly greater levels; per §4.2
and §8 the attachment places a new entry under the last child of the
node as long as the new entry's level is strictly greater than that
last child's level (this is the unique attachment rule that reproduces
both documented fixtures, [1,2,3,1] and [1,2,2,4,2], as well as the
repository's own test module). -/

inductive TocElement where
  | mk (level : Int) (url : String) (title : String)
      (children : List TocElement)
deriving Repr

def TocElement.level : TocElement → Int
  | .mk l _ _ _ => l

def TocElement.url : TocElement → String
  | .mk _ u _ _ => u

def TocElement.title : TocElement → String
  | .mk _ _ t _ => t

def TocElement.children : TocElement → List TocElement
  | .mk _ _ _ cs => cs

theorem mem_of_getLast? {α : Type} {l : List α} {a : α}
    (h : l.getLast? = some a) : a ∈ l := by
  induction l with
  | nil => simp at h
  | cons x xs ih =>
    cases xs with
    | nil => simp_all [List.getLast?]
    | cons y ys =>
      rw [List.getLast?_cons_cons] at h
      exact List.mem_cons_of_mem _ (ih h)

/-- Modelled from the spec: `TocElement::child` (external
`epub_builder` crate).  A new element whose level is strictly greater
than the level of the current last child descends into that last
child; otherwise it is appended as a new last child. -/
def TocElement.child : TocElement → TocElement → TocElement
  | .mk lv u t cs, e =>
    match h : cs.getLast? with
    | none => .mk lv u t (cs ++ [e])
    | some last =>
      if e.level > last.level then
        .mk lv u t (cs.dropLast ++ [last.child e])
      else
        .mk lv u t (cs ++ [e])
termination_by self _ => sizeOf self
decreasing_by
  have hm : last ∈ cs := mem_of_getLast? h
  have := List.sizeOf_lt_of_mem hm
  simp only [TocElement.mk.sizeOf_spec]
  omega

/-! ## The TOC builder (src/epub.rs:281, `get_header_level_toc_vec`)

Panics in the source are embedded as `none`:
  * indexing `header_levels[elem_name]` on a missing key,
  * `.unwrap()` on the heading's `id` attribute,
  * the `unreachable!()` arm when `headers_vec` has no last element. -/

def tocLoop (content_url : String) :
    List Node → Option Int → List TocElement → Option (List TocElement)
  | [], _, acc => some acc
  | heading :: rest, last_toc_elem_level, acc =>
    match headerLevels.lookup heading.nodeName with
    | none => none
    | some elem_level =>
      match heading.attr "id" with
      | none => none
      | some id =>
        let toc : TocElement :=
          .mk elem_level (content_url ++ "#" ++ id)
            (replace_escaped_characters (textContents heading)) []
        match last_toc_elem_level with
        | some last_elem_level =>
          if elem_level ≤ last_elem_level then
            tocLoop content_url rest (some elem_level) (acc ++ [toc])
          else
            match acc.getLast? with
            | some toc_elem =>
              tocLoop content_url rest last_toc_elem_level
                (acc.dropLast ++ [toc_elem.child toc])
            | none => none
        | none => tocLoop content_url rest (some elem_level) (acc ++ [toc])

/-- Embedding of `get_header_level_toc_vec` (src/epub.rs:281); `none`
embeds a panic. -/
def get_header_level_toc_vec (content_url : String) (article : Node) :
    Option (List TocElement) :=
  let article := generate_header_ids article
  tocLoop content_url (selectHeadings article) none []

/-! ## `generate_epubs` (src/epub.rs:16)

The external collaborators (ZIP library, EPUB container builder, the
filesystem, the progress bar and the results table) are embedded as
follows: the success or failure of each fallible external call is an
oracle (`ArticleEnv` per article, `MergedEnv` for the once-per-run
calls of merged mode, `store` for presence of image files in the
temporary directory); the observable effects are recorded in the
output (`files` = successful `File::create` calls in order, `rows` =
rows appended to the results table, `barIncs` = number of `bar.inc(1)`
calls, `errors` = the error list).  A Rust panic
(`expect`/`unwrap`/`unreachable!`) aborts the whole process: the
output then has `panicked = true` and `retErr = none`.  The computed
TOC vectors and content strings flow only into the opaque container
writer, so they do not appear in the observable output. -/

inductive ErrKind where
  | containerInit
  | serialization
  | utf8
  | metadata
  | addContent
  | addResource
  | render
deriving DecidableEq, Repr

structure ErrorRecord where
  source : String
  kind : ErrKind
deriving DecidableEq, Repr

structure Article where
  url : String
  title : String
  byline : Option String
  doc : Node
  img_urls : List (String × Option String)

/-- Success oracle for the fallible external calls made while
processing one article. -/
structure ArticleEnv where
  zipNewOk : Bool
  builderNewOk : Bool
  createOk : Bool
  serializeOk : Bool
  utf8Ok : Bool
  metaAuthorOk : Bool
  metaTitleOk : Bool
  addContentOk : Bool
  addResourceOk : Bool
  addAppendixOk : Bool
  generateOk : Bool

/-- Success oracle for the once-per-run external calls of merged mode. -/
structure MergedEnv where
  zipNewOk : Bool
  builderNewOk : Bool
  addAppendixOk : Bool
  createOk : Bool
  generateOk : Bool

/-- Outcome of one article's pipeline: `Ok(())`, an early `Err`
(caught and recorded by the caller), or a process-aborting panic. -/
inductive ArtStep where
  | ok
  | err (k : ErrKind)
  | panic
deriving DecidableEq, Repr

/-- The image loop of standalone mode (src/epub.rs:178): `File::open`
panics when the file is absent, `img.1.as_ref().unwrap()` panics when
the MIME type is absent, and `add_resource(..)?` propagates an error. -/
def addImagesStandalone (store : String → Bool) (resOk : Bool) :
    List (String × Option String) → ArtStep
  | [] => .ok
  | (iname, mime) :: rest =>
    if store iname then
      match mime with
      | none => .panic
      | some _ =>
        if resOk then addImagesStandalone store resOk rest
        else .err .addResource
    else .panic

/-- The image loop of merged mode (src/epub.rs:85): as in standalone
mode, except that `add_resource(..).unwrap()` panics on failure. -/
def addImagesMerged (store : String → Bool) (resOk : Bool) :
    List (String × Option String) → ArtStep
  | [] => .ok
  | (iname, mime) :: rest =>
    if store iname then
      match mime with
      | none => .panic
      | some _ =>
        if resOk then addImagesMerged store resOk rest
        else .panic
    else .panic

/-- Title sanitization of standalone mode (src/epub.rs:146):
`title.replace("/", " ").replace("\\", " ")`. -/
def sanitizeTitle (title : String) : String :=
  ⟨replace1 '\\' [' '] (replace1 '/' [' '] title.data)⟩

/-- One article of standalone mode (the `result` closure,
src/epub.rs:144): returns the files created so far and the outcome. -/
def standaloneArticle (store : String → Bool) (f : ArticleEnv)
    (a : Article) : List String × ArtStep :=
  if ¬ f.zipNewOk then ([], .err .containerInit)
  else if ¬ f.builderNewOk then ([], .err .containerInit)
  else
    let file_name := sanitizeTitle a.title ++ ".epub"
    if ¬ f.createOk then ([], .panic)
    else if ¬ f.serializeOk then ([file_name], .panic)
    else if ¬ f.utf8Ok then ([file_name], .panic)
    else
      ([file_name],
        if a.byline.isSome ∧ ¬ f.metaAuthorOk then .err .metadata
        else if ¬ f.metaTitleOk then .err .metadata
        else if ¬ f.addContentOk then .err .addContent
        else
          match addImagesStandalone store f.addResourceOk a.img_urls with
          | .ok =>
            if ¬ f.addAppendixOk then .err .addContent
            else if ¬ f.generateOk then .err .render
            else .ok
          | s => s)

structure LoopSt where
  files : List String
  errors : List ErrorRecord
  rows : List String
  barIncs : Nat
deriving DecidableEq, Repr

/-- The standalone loop (src/epub.rs:143): on success `bar.inc(1)` and
a results-table row (both inside the closure); on error, the error is
tagged with the article's URL and pushed; a panic aborts the run. -/
def standaloneLoop (store : String → Bool) (aenv : Nat → ArticleEnv) :
    Nat → List Article → LoopSt → LoopSt × Bool
  | _, [], st => (st, false)
  | i, a :: rest, st =>
    match standaloneArticle store (aenv i) a with
    | (created, step) =>
      let st := { st with files := st.files ++ created }
      match step with
      | .ok =>
        standaloneLoop store aenv (i + 1) rest
          { st with rows := st.rows ++ [a.title], barIncs := st.barIncs + 1 }
      | .err k =>
        standaloneLoop store aenv (i + 1) rest
          { st with errors := st.errors ++ [⟨a.url, k⟩] }
      | .panic => (st, true)

/-- One article of merged mode (the `article_result` closure,
src/epub.rs:67). -/
def mergedArticle (store : String → Bool) (f : ArticleEnv)
    (a : Article) : ArtStep :=
  if ¬ f.serializeOk then .err .serialization
  else if ¬ f.utf8Ok then .err .utf8
  else if ¬ f.metaTitleOk then .err .metadata
  else if ¬ f.addContentOk then .err .addContent
  else addImagesMerged store f.addResourceOk a.img_urls

/-- The merged fold (src/epub.rs:63): after each article's closure,
an error is tagged and pushed, and then `bar.inc(1)` and a
results-table row happen unconditionally (src/epub.rs:105-106). -/
def mergedLoop (store : String → Bool) (aenv : Nat → ArticleEnv) :
    Nat → List Article → LoopSt → LoopSt × Bool
  | _, [], st => (st, false)
  | i, a :: rest, st =>
    match mergedArticle store (aenv i) a with
    | .panic => (st, true)
    | .ok =>
      mergedLoop store aenv (i + 1) rest
        { st with rows := st.rows ++ [a.title], barIncs := st.barIncs + 1 }
    | .err k =>
      mergedLoop store aenv (i + 1) rest
        { st with errors := st.errors ++ [⟨a.url, k⟩],
                  rows := st.rows ++ [a.title], barIncs := st.barIncs + 1 }

/-- Observable output of a `generate_epubs` run. -/
structure RunOut where
  files : List String
  errors : List ErrorRecord
  rows : List String
  barIncs : Nat
  panicked : Bool
  retErr : Option Bool
deriving DecidableEq, Repr

/-- Merged mode of `generate_epubs` (src/epub.rs:38). -/
def generateMerged (articles : List Article) (name : String)
    (store : String → Bool) (menv : MergedEnv)
    (aenv : Nat → ArticleEnv) : RunOut :=
  if ¬ menv.zipNewOk then
    ⟨[], [⟨name, .containerInit⟩], [], 0, false, some true⟩
  else if ¬ menv.builderNewOk then
    ⟨[], [⟨name, .containerInit⟩], [], 0, false, some true⟩
  else
    match mergedLoop store aenv 0 articles ⟨[], [], [], 0⟩ with
    | (st, panicked) =>
      if panicked then ⟨st.files, st.errors, st.rows, st.barIncs, true, none⟩
      else if ¬ menv.addAppendixOk then
        ⟨st.files, st.errors ++ [⟨name, .addContent⟩], st.rows, st.barIncs,
          false, some true⟩
      else if ¬ menv.createOk then
        ⟨st.files, st.errors, st.rows, st.barIncs, true, none⟩
      else if ¬ menv.generateOk then
        ⟨st.files ++ [name], st.errors ++ [⟨name, .render⟩], st.rows,
          st.barIncs, false, some true⟩
      else
        ⟨st.files ++ [name], st.errors, st.rows, st.barIncs, false,
          some (!st.errors.isEmpty)⟩

/-- Embedding of `generate_epubs` (src/epub.rs:16).  `mergedName` is
`app_config.merged()`; its presence selects merged mode. -/
def generate_epubs (articles : List Article) (mergedName : Option String)
    (store : String → Bool) (menv : MergedEnv)
    (aenv : Nat → ArticleEnv) : RunOut :=
  match mergedName with
  | some name => generateMerged articles name store menv aenv
  | none =>
    match standaloneLoop store aenv 0 articles ⟨[], [], [], 0⟩ with
    | (st, panicked) =>
      if panicked then ⟨st.files, st.errors, st.rows, st.barIncs, true, none⟩
      else
        ⟨st.files, st.errors, st.rows, st.barIncs, false,
          some (!st.errors.isEmpty)⟩

/-! ## Helper lemmas about `replace1` -/

theorem replace1_append (pat : Char) (rep a b : List Char) :
    replace1 pat rep (a ++ b) = replace1 pat rep a ++ replace1 pat rep b := by
  induction a with
  | nil => simp [replace1]
  | cons c cs ih =>
    by_cases hc : c = pat <;> simp [replace1, hc, ih]

theorem replace1_of_not_mem {pat : Char} {l : List Char} (rep : List Char)
    (h : pat ∉ l) : replace1 pat rep l = l := by
  induction l with
  | nil => simp [replace1]
  | cons c cs ih =>
    simp only [List.mem_cons, not_or] at h
    simp [replace1, Ne.symm h.1, ih h.2]

theorem escape_eq_flatMap (l : List Char) :
    replace1 '>' ['&', 'g', 't', ';']
      (replace1 '<' ['&', 'l', 't', ';']
        (replace1 '&' ['&', 'a', 'm', 'p', ';'] l)) =
    l.flatMap escapeChar := by
  induction l with
  | nil => simp [replace1]
  | cons c cs ih =>
    by_cases h1 : c = '&'
    · subst h1
      have e1 : replace1 '&' ['&', 'a', 'm', 'p', ';'] ('&' :: cs) =
          ['&', 'a', 'm', 'p', ';'] ++ replace1 '&' ['&', 'a', 'm', 'p', ';'] cs := by
        simp [replace1]
      rw [e1, replace1_append,
        (by decide : replace1 '<' ['&', 'l', 't', ';'] ['&', 'a', 'm', 'p', ';'] =
          ['&', 'a', 'm', 'p', ';']),
        replace1_append,
        (by decide : replace1 '>' ['&', 'g', 't', ';'] ['&', 'a', 'm', 'p', ';'] =
          ['&', 'a', 'm', 'p', ';']),
        ih]
      simp [escapeChar]
    · by_cases h2 : c = '<'
      · subst h2
        have e1 : replace1 '&' ['&', 'a', 'm', 'p', ';'] ('<' :: cs) =
            '<' :: replace1 '&' ['&', 'a', 'm', 'p', ';'] cs := by
          simp [replace1]
        have e2 : ∀ X, replace1 '<' ['&', 'l', 't', ';'] ('<' :: X) =
            ['&', 'l', 't', ';'] ++ replace1 '<' ['&', 'l', 't', ';'] X :=
          fun X => by simp [replace1]
        rw [e1, e2, replace1_append,
          (by decide : replace1 '>' ['&', 'g', 't', ';'] ['&', 'l', 't', ';'] =
            ['&', 'l', 't', ';']),
          ih]
        simp [escapeChar]
      · by_cases h3 : c = '>'
        · subst h3
          have e1 : replace1 '&' ['&', 'a', 'm', 'p', ';'] ('>' :: cs) =
              '>' :: replace1 '&' ['&', 'a', 'm', 'p', ';'] cs := by
            simp [replace1]
          have e2 : ∀ X, replace1 '<' ['&', 'l', 't', ';'] ('>' :: X) =
              '>' :: replace1 '<' ['&', 'l', 't', ';'] X :=
            fun X => by simp [replace1]
          have e3 : ∀ X, replace1 '>' ['&', 'g', 't', ';'] ('>' :: X) =
              ['&', 'g', 't', ';'] ++ replace1 '>' ['&', 'g', 't', ';'] X :=
            fun X => by simp [replace1]
          rw [e1, e2, e3, ih]
          simp [escapeChar]
        · have e1 : replace1 '&' ['&', 'a', 'm', 'p', ';'] (c :: cs) =
              c :: replace1 '&' ['&', 'a', 'm', 'p', ';'] cs := by
            simp [replace1, h1]
          have e2 : ∀ X, replace1 '<' ['&', 'l', 't', ';'] (c :: X) =
              c :: replace1 '<' ['&', 'l', 't', ';'] X :=
            fun X => by simp [replace1, h2]
          have e3 : ∀ X, replace1 '>' ['&', 'g', 't', ';'] (c :: X) =
              c :: replace1 '>' ['&', 'g', 't', ';'] X :=
            fun X => by simp [replace1, h3]
          rw [e1, e2, e3, ih]
          simp [escapeChar, h1, h2, h3]

theorem flatMap_escapeChar_of_clean {l : List Char}
    (h : ∀ c ∈ l, c ≠ '&' ∧ c ≠ '<' ∧ c ≠ '>') :
    l.flatMap escapeChar = l := by
  induction l with
  | nil => simp
  | cons c cs ih =>
    have hc := h c (List.mem_cons_self c cs)
    have hcs : ∀ x ∈ cs, x ≠ '&' ∧ x ≠ '<' ∧ x ≠ '>' :=
      fun x hx => h x (List.mem_cons_of_mem _ hx)
    simp [escapeChar, hc.1, hc.2.1, hc.2.2, ih hcs]

/-- C9: `replace_escaped_characters` rewrites exactly the characters
`&`, `<`, `>` (ampersand first, so generated entities are not
double-escaped) to `&amp;`, `&lt;`, `&gt;` and changes nothing else
(it equals the character-wise expansion `escapeChar`); on any string
containing none of those three characters it is the identity, hence
idempotent there. -/
theorem c9_replace_escaped_characters (s : String) :
    replace_escaped_characters s = ⟨s.data.flatMap escapeChar⟩ ∧
    ((∀ c ∈ s.data, c ≠ '&' ∧ c ≠ '<' ∧ c ≠ '>') →
      replace_escaped_characters s = s ∧
      replace_escaped_characters (replace_escaped_characters s) =
        replace_escaped_characters s) := by
  have hmain : replace_escaped_characters s = ⟨s.data.flatMap escapeChar⟩ := by
    simp [replace_escaped_characters, escape_eq_flatMap]
  refine ⟨hmain, fun h => ?_⟩
  have hid : replace_escaped_characters s = s := by
    rw [hmain, flatMap_escapeChar_of_clean h]
  exact ⟨hid, by rw [hid, hid]⟩

/-- C9 witness: concrete evaluation, discharging the hypothesis of the
conditional part at a clean string. -/
theorem c9_witness :
    replace_escaped_characters "Lorem ipsum" =
      ⟨("Lorem ipsum").data.flatMap escapeChar⟩ ∧
    replace_escaped_characters "Lorem ipsum" = "Lorem ipsum" :=
  ⟨(c9_replace_escaped_characters "Lorem ipsum").1,
    ((c9_replace_escaped_characters "Lorem ipsum").2 (by decide)).1⟩

/-! ## Shared concrete fixtures -/

/-- All external calls succeed. -/
def allOkEnv : ArticleEnv :=
  ⟨true, true, true, true, true, true, true, true, true, true, true⟩

/-- All once-per-run merged-mode calls succeed. -/
def allOkMerged : MergedEnv := ⟨true, true, true, true, true⟩

/-- Merged-mode oracle whose container initialization fails. -/
def zipFailMerged : MergedEnv := ⟨false, true, true, true, true⟩

/-- C5: in merged mode, if container-writer initialization fails
(either `ZipLibrary::new` or `EpubBuilder::new`), the run aborts
immediately with no per-article processing: no output file is
created, no table row is added, the progress bar never advances, and
the returned error list is exactly one entry tagged with the merged
archive's name. -/
theorem c5_merged_init_failure (articles : List Article) (name : String)
    (store : String → Bool) (menv : MergedEnv) (aenv : Nat → ArticleEnv)
    (h : menv.zipNewOk = false ∨ menv.builderNewOk = false) :
    generate_epubs articles (some name) store menv aenv =
      ⟨[], [⟨name, .containerInit⟩], [], 0, false, some true⟩ := by
  rcases h with h | h
  · simp [generate_epubs, generateMerged, h]
  · by_cases hz : menv.zipNewOk
    · simp [generate_epubs, generateMerged, hz, h]
    · simp [generate_epubs, generateMerged, hz]

/-- C5 witness: a concrete two-article batch with a failing container
initialization. -/
theorem c5_witness :
    zipFailMerged.zipNewOk = false ∧
    generate_epubs
      [⟨"https://a.example", "A", none, .text "", []⟩,
       ⟨"https://b.example", "B", none, .text "", []⟩]
      (some "merged.epub") (fun _ => true) zipFailMerged (fun _ => allOkEnv) =
      ⟨[], [⟨"merged.epub", .containerInit⟩], [], 0, false, some true⟩ :=
  ⟨rfl,
    c5_merged_init_failure _ "merged.epub" (fun _ => true) zipFailMerged
      (fun _ => allOkEnv) (Or.inl rfl)⟩

/-! ## Helper lemmas about selection and `generate_header_ids` -/

theorem lookup_append_of_none {l₁ l₂ : List (String × String)} {k : String}
    (h : l₁.lookup k = none) : (l₁ ++ l₂).lookup k = l₂.lookup k := by
  induction l₁ with
  | nil => simp
  | cons p ps ih =>
    match p with
    | (k', v) =>
      by_cases hk : k = k'
      · simp [List.lookup, hk] at h
      · have hb : (k == k') = false := beq_eq_false_iff_ne.mpr hk
        simp only [List.lookup, List.cons_append, hb] at h ⊢
        exact ih h

/-- Every node selected by `select("h1, h2, h3, h4")` is an element
whose name is one of the four heading tags. -/
theorem selectFromList_shape :
    ∀ cs : List Node, ∀ h ∈ selectFromList cs,
      h.nodeName ∈ headerNames ∧ ∃ n a k, h = Node.elem n a k := by
  refine selectFromList.induct
    (fun t => ∀ h ∈ selectFrom t,
      h.nodeName ∈ headerNames ∧ ∃ n a k, h = Node.elem n a k)
    (fun cs => ∀ h ∈ selectFromList cs,
      h.nodeName ∈ headerNames ∧ ∃ n a k, h = Node.elem n a k)
    ?_ ?_ ?_ ?_
  · intro s h hh
    simp [selectFrom] at hh
  · intro n attrs cs ih h hh
    simp only [selectFrom] at hh
    rcases List.mem_append.mp hh with h1 | h2
    · split at h1
      · rename_i hn
        rcases List.mem_singleton.mp h1 with rfl
        exact ⟨by simpa [Node.nodeName] using hn, n, attrs, cs, rfl⟩
      · simp at h1
    · exact ih _ h2
  · intro h hh
    simp [selectFromList] at hh
  · intro c cs ih1 ih2 h hh
    simp only [selectFromList] at hh
    rcases List.mem_append.mp hh with h1 | h2
    · exact ih1 _ h1
    · exact ih2 _ h2

/-- `generate_header_ids` preserves element names. -/
theorem nodeName_generate_header_ids (t : Node) :
    (generate_header_ids t).nodeName = t.nodeName := by
  cases t <;> simp [generate_header_ids, Node.nodeName]

/-- `generate_header_ids` preserves text contents. -/
theorem textContents_generate_header_ids :
    ∀ t : Node, textContents (generate_header_ids t) = textContents t := by
  refine selectFrom.induct
    (fun t => textContents (generate_header_ids t) = textContents t)
    (fun cs => textContentsList (generate_header_ids_list cs) =
      textContentsList cs)
    ?_ ?_ ?_ ?_
  · intro s
    simp [generate_header_ids, textContents]
  · intro n attrs cs ih
    simp [generate_header_ids, textContents, ih]
  · simp [generate_header_ids_list, textContentsList]
  · intro c cs ih1 ih2
    simp [generate_header_ids_list, textContentsList, ih1, ih2]

/-- Selection commutes with `generate_header_ids`: the headings of the
rewritten tree are the rewrites of the original headings, in order. -/
theorem selectFromList_generate_header_ids :
    ∀ cs : List Node, selectFromList (generate_header_ids_list cs) =
      (selectFromList cs).map generate_header_ids := by
  refine selectFromList.induct
    (fun t => selectFrom (generate_header_ids t) =
      (selectFrom t).map generate_header_ids)
    (fun cs => selectFromList (generate_header_ids_list cs) =
      (selectFromList cs).map generate_header_ids)
    ?_ ?_ ?_ ?_
  · intro s
    simp [generate_header_ids, selectFrom]
  · intro n attrs cs ih
    by_cases hn : n ∈ headerNames
    · simp [generate_header_ids, selectFrom, hn, ih]
    · simp [generate_header_ids, selectFrom, hn, ih]
  · simp [generate_header_ids_list, selectFromList]
  · intro c cs ih1 ih2
    simp [generate_header_ids_list, selectFromList, ih1, ih2]

theorem selectHeadings_generate_header_ids (t : Node) :
    selectHeadings (generate_header_ids t) =
      (selectHeadings t).map generate_header_ids := by
  cases t with
  | text s => simp [generate_header_ids, selectHeadings]
  | elem n attrs cs =>
    simp [generate_header_ids, selectHeadings,
      selectFromList_generate_header_ids]

/-- Attributes produced by `generate_header_ids` on a heading element. -/
theorem generate_header_ids_attrs {n : String}
    (attrs : List (String × String)) (cs : List Node)
    (hn : n ∈ headerNames) :
    (generate_header_ids (Node.elem n attrs cs)).nodeAttrs =
      (if (attrs.lookup "id").isNone then
        attrs ++ [("id", "_" ++ md5Hex (textContentsList cs))]
      else attrs) := by
  by_cases hid : (attrs.lookup "id").isNone
  · simp [generate_header_ids, Node.nodeAttrs, hn, hid]
  · simp [generate_header_ids, Node.nodeAttrs, hn, hid]

/-- After `generate_header_ids`, every selected heading carries an id. -/
theorem generate_header_ids_attr_isSome {h : Node}
    (hmem : ∃ cs, h ∈ selectFromList cs) :
    ((generate_header_ids h).attr "id").isSome := by
  obtain ⟨cs0, hmem⟩ := hmem
  obtain ⟨hname, n, attrs, cs, rfl⟩ := selectFromList_shape cs0 h hmem
  simp only [Node.nodeName] at hname
  rw [Node.attr, generate_header_ids_attrs attrs cs hname]
  by_cases hid : (attrs.lookup "id").isNone
  · rw [if_pos hid]
    rw [lookup_append_of_none (Option.isNone_iff_eq_none.mp hid)]
    simp [List.lookup]
  · rw [if_neg hid]
    simpa [Node.attr, Option.isNone_iff_eq_none] using hid

/-- `generate_header_ids` is idempotent. -/
theorem generate_header_ids_idem :
    ∀ t : Node, generate_header_ids (generate_header_ids t) =
      generate_header_ids t := by
  refine selectFrom.induct
    (fun t => generate_header_ids (generate_header_ids t) =
      generate_header_ids t)
    (fun cs => generate_header_ids_list (generate_header_ids_list cs) =
      generate_header_ids_list cs)
    ?_ ?_ ?_ ?_
  · intro s
    simp [generate_header_ids]
  · intro n attrs cs ih
    by_cases hn : n ∈ headerNames
    · by_cases hid : (attrs.lookup "id").isNone
      · have hlk : ((attrs ++
            [("id", "_" ++ md5Hex (textContentsList cs))]).lookup "id") =
            some ("_" ++ md5Hex (textContentsList cs)) := by
          rw [lookup_append_of_none (Option.isNone_iff_eq_none.mp hid)]
          simp [List.lookup]
        simp [generate_header_ids, hn, hid, hlk, ih]
      · simp [generate_header_ids, hn, hid, ih]
    · simp [generate_header_ids, hn, ih]
  · simp [generate_header_ids_list]
  · intro c cs ih1 ih2
    simp [generate_header_ids_list, ih1, ih2]

theorem mem_selectHeadings_exists {t h : Node}
    (hm : h ∈ selectHeadings t) : ∃ cs, h ∈ selectFromList cs := by
  cases t with
  | text s => simp [selectHeadings] at hm
  | elem n a cs => exact ⟨cs, hm⟩

/-- C4: for every document tree, `generate_header_ids` maps each
selected heading to its rewrite (first conjunct); a heading that
already carries an `id` keeps its attributes unchanged (second
conjunct, first part); a heading lacking an `id` receives exactly
`"_" ++ md5Hex(text_contents)` appended as its `id` (second conjunct,
second part); re-running is a no-op (third conjunct); and two
untagged headings with identical text receive identical generated ids
(fourth conjunct). -/
theorem c4_generate_header_ids_spec (t : Node) :
    selectHeadings (generate_header_ids t) =
      (selectHeadings t).map generate_header_ids ∧
    (∀ h ∈ selectHeadings t,
      ((h.attr "id").isSome →
        (generate_header_ids h).nodeAttrs = h.nodeAttrs) ∧
      (h.attr "id" = none →
        (generate_header_ids h).nodeAttrs =
          h.nodeAttrs ++ [("id", "_" ++ md5Hex (textContents h))] ∧
        (generate_header_ids h).attr "id" =
          some ("_" ++ md5Hex (textContents h)))) ∧
    generate_header_ids (generate_header_ids t) = generate_header_ids t ∧
    (∀ h₁ ∈ selectHeadings t, ∀ h₂ ∈ selectHeadings t,
      h₁.attr "id" = none → h₂.attr "id" = none →
      textContents h₁ = textContents h₂ →
      (generate_header_ids h₁).attr "id" =
        (generate_header_ids h₂).attr "id") := by
  have hkey : ∀ h ∈ selectHeadings t,
      ((h.attr "id").isSome →
        (generate_header_ids h).nodeAttrs = h.nodeAttrs) ∧
      (h.attr "id" = none →
        (generate_header_ids h).nodeAttrs =
          h.nodeAttrs ++ [("id", "_" ++ md5Hex (textContents h))] ∧
        (generate_header_ids h).attr "id" =
          some ("_" ++ md5Hex (textContents h))) := by
    intro h hm
    obtain ⟨cs0, hm0⟩ := mem_selectHeadings_exists hm
    obtain ⟨hname, n, a, cs, rfl⟩ := selectFromList_shape cs0 h hm0
    simp only [Node.nodeName] at hname
    constructor
    · intro hsome
      have hnone : ¬ (a.lookup "id").isNone := by
        simp only [Node.attr, Node.nodeAttrs] at hsome
        obtain ⟨v, hv⟩ := Option.isSome_iff_exists.mp hsome
        simp [hv]
      rw [generate_header_ids_attrs a cs hname, if_neg hnone,
        Node.nodeAttrs]
    · intro hnone
      simp only [Node.attr, Node.nodeAttrs] at hnone
      have hnone' : (a.lookup "id").isNone := by simp [hnone]
      constructor
      · rw [generate_header_ids_attrs a cs hname, if_pos hnone',
          Node.nodeAttrs]
        simp [textContents]
      · rw [Node.attr, generate_header_ids_attrs a cs hname,
          if_pos hnone', lookup_append_of_none hnone]
        simp [List.lookup, textContents]
  refine ⟨selectHeadings_generate_header_ids t, hkey,
    generate_header_ids_idem t, ?_⟩
  intro h₁ hm₁ h₂ hm₂ hn₁ hn₂ htext
  rw [((hkey h₁ hm₁).2 hn₁).2, ((hkey h₂ hm₂).2 hn₂).2, htext]

/-- C4 witness: a concrete tree with one untagged and one pre-tagged
heading sharing their text with a third untagged heading. -/
theorem c4_witness :
    ((Node.elem "h1" [] [.text "Heading 1"]).attr "id" = none ∧
      (generate_header_ids (Node.elem "h1" [] [.text "Heading 1"])).attr
          "id" =
        some ("_" ++
          md5Hex (textContents (Node.elem "h1" [] [.text "Heading 1"])))) ∧
    ((Node.elem "h2" [("id", "pre")] [.text "T"]).attr "id").isSome ∧
    (generate_header_ids
        (Node.elem "h2" [("id", "pre")] [.text "T"])).nodeAttrs =
      (Node.elem "h2" [("id", "pre")] [.text "T"]).nodeAttrs ∧
    (generate_header_ids (Node.elem "h1" [] [.text "Heading 1"])).attr
        "id" =
      (generate_header_ids (Node.elem "h3" [] [.text "Heading 1"])).attr
        "id" := by
  have hspec := c4_generate_header_ids_spec
    (Node.elem "body" []
      [Node.elem "h1" [] [.text "Heading 1"],
       Node.elem "h2" [("id", "pre")] [.text "T"],
       Node.elem "h3" [] [.text "Heading 1"]])
  have hm1 : Node.elem "h1" [] [.text "Heading 1"] ∈
      selectHeadings (Node.elem "body" []
        [Node.elem "h1" [] [.text "Heading 1"],
         Node.elem "h2" [("id", "pre")] [.text "T"],
         Node.elem "h3" [] [.text "Heading 1"]]) := by
    simp [selectHeadings, selectFromList, selectFrom, headerNames]
  have hm2 : Node.elem "h2" [("id", "pre")] [.text "T"] ∈
      selectHeadings (Node.elem "body" []
        [Node.elem "h1" [] [.text "Heading 1"],
         Node.elem "h2" [("id", "pre")] [.text "T"],
         Node.elem "h3" [] [.text "Heading 1"]]) := by
    simp [selectHeadings, selectFromList, selectFrom, headerNames]
  have hm3 : Node.elem "h3" [] [.text "Heading 1"] ∈
      selectHeadings (Node.elem "body" []
        [Node.elem "h1" [] [.text "Heading 1"],
         Node.elem "h2" [("id", "pre")] [.text "T"],
         Node.elem "h3" [] [.text "Heading 1"]]) := by
    simp [selectHeadings, selectFromList, selectFrom, headerNames]
  refine ⟨⟨rfl, ?_⟩, by simp [Node.attr, Node.nodeAttrs, List.lookup], ?_, ?_⟩
  · exact ((hspec.2.1 _ hm1).2 rfl).2
  · exact (hspec.2.1 _ hm2).1 (by simp [Node.attr, Node.nodeAttrs, List.lookup])
  · exact hspec.2.2.2 _ hm1 _ hm3 rfl rfl rfl

/-! ## C10: totality of the TOC builder -/

theorem headerLevels_lookup_isSome {n : String} (hn : n ∈ headerNames) :
    (headerLevels.lookup n).isSome := by
  rcases (by simpa [headerNames] using hn : n = "h1" ∨ n = "h2" ∨
    n = "h3" ∨ n = "h4") with rfl | rfl | rfl | rfl <;> decide

theorem tocLoop_isSome (url : String) :
    ∀ (hs : List Node) (lv : Option Int) (acc : List TocElement),
      (∀ h ∈ hs, (headerLevels.lookup h.nodeName).isSome ∧
        (h.attr "id").isSome) →
      (lv.isSome → acc ≠ []) →
      (tocLoop url hs lv acc).isSome := by
  intro hs
  induction hs with
  | nil =>
    intro lv acc _ _
    simp [tocLoop]
  | cons h rest ih =>
    intro lv acc hcond hinv
    obtain ⟨hlvl, hid⟩ := hcond h (List.mem_cons_self h rest)
    have hrest : ∀ x ∈ rest, (headerLevels.lookup x.nodeName).isSome ∧
        (x.attr "id").isSome :=
      fun x hx => hcond x (List.mem_cons_of_mem _ hx)
    obtain ⟨l, hl⟩ := Option.isSome_iff_exists.mp hlvl
    obtain ⟨i, hi⟩ := Option.isSome_iff_exists.mp hid
    cases lv with
    | none =>
      simp only [tocLoop, hl, hi]
      exact ih _ _ hrest (by simp)
    | some last =>
      by_cases hle : l ≤ last
      · simp only [tocLoop, hl, hi, if_pos hle]
        exact ih _ _ hrest (by simp)
      · have hne : acc ≠ [] := hinv (by simp)
        have hsome : acc.getLast?.isSome := List.getLast?_isSome.mpr hne
        obtain ⟨x, hx⟩ := Option.isSome_iff_exists.mp hsome
        simp only [tocLoop, hl, hi, if_neg hle, hx]
        exact ih _ _ hrest (by simp)

/-- C10: `get_header_level_toc_vec` is total — it never reaches a
panic.  Because `generate_header_ids` runs first, every selected
heading carries an id, so the id `unwrap` and the `header_levels`
index always succeed, and the loop keeps `last_toc_elem_level`
`Some` only when `headers_vec` is non-empty, so the `unreachable!()`
arm is never executed: the embedding (where `none` embeds a panic)
always returns `some`. -/
theorem c10_get_header_level_toc_vec_total (content_url : String)
    (article : Node) :
    (get_header_level_toc_vec content_url article).isSome := by
  rw [get_header_level_toc_vec]
  apply tocLoop_isSome
  · intro h hm
    rw [selectHeadings_generate_header_ids] at hm
    obtain ⟨h0, hm0, rfl⟩ := List.mem_map.mp hm
    obtain ⟨cs0, hmc⟩ := mem_selectHeadings_exists hm0
    obtain ⟨hname, -⟩ := selectFromList_shape cs0 h0 hmc
    constructor
    · rw [nodeName_generate_header_ids]
      exact headerLevels_lookup_isSome hname
    · exact generate_header_ids_attr_isSome ⟨cs0, hmc⟩
  · intro hlv
    simp at hlv

/-! ## C1 and C2: TOC shapes for the documented heading-level fixtures -/

/-- The heading level of a node, via the `header_levels` table
(0 for a non-heading, which never occurs among selected nodes). -/
def headingLevel (h : Node) : Int :=
  (headerLevels.lookup h.nodeName).getD 0

theorem lookup_of_headingLevel {h : Node} {l : Int}
    (hl : headingLevel h = l) (hne : l ≠ 0) :
    headerLevels.lookup h.nodeName = some l := by
  unfold headingLevel at hl
  cases hx : headerLevels.lookup h.nodeName with
  | none =>
    rw [hx] at hl
    simp at hl
    exact absurd hl.symm hne
  | some v =>
    rw [hx] at hl
    simp only [Option.getD_some] at hl
    rw [hl]

theorem child_nil (lv : Int) (u t : String) (e : TocElement) :
    (TocElement.mk lv u t []).child e = TocElement.mk lv u t [e] := by
  rw [TocElement.child]
  split <;> simp_all

theorem child_push (lv : Int) (u t : String) (cs : List TocElement)
    (last e : TocElement) (h : cs.getLast? = some last)
    (hle : ¬ e.level > last.level) :
    (TocElement.mk lv u t cs).child e =
      TocElement.mk lv u t (cs ++ [e]) := by
  rw [TocElement.child]
  split <;> simp_all

theorem child_descend (lv : Int) (u t : String) (cs : List TocElement)
    (last e : TocElement) (h : cs.getLast? = some last)
    (hgt : e.level > last.level) :
    (TocElement.mk lv u t cs).child e =
      TocElement.mk lv u t (cs.dropLast ++ [last.child e]) := by
  rw [TocElement.child]
  split <;> simp_all

theorem child_one_descend (lv : Int) (u t : String) (B e : TocElement)
    (h : e.level > B.level) :
    (TocElement.mk lv u t [B]).child e = TocElement.mk lv u t [B.child e] := by
  rw [child_descend lv u t [B] B e (by simp) h]
  simp

theorem child_one_push (lv : Int) (u t : String) (B e : TocElement)
    (h : ¬ e.level > B.level) :
    (TocElement.mk lv u t [B]).child e = TocElement.mk lv u t [B, e] := by
  rw [child_push lv u t [B] B e (by simp) h]
  simp

theorem child_pair_descend (lv : Int) (u t : String) (B C e : TocElement)
    (h : e.level > C.level) :
    (TocElement.mk lv u t [B, C]).child e =
      TocElement.mk lv u t [B, C.child e] := by
  rw [child_descend lv u t [B, C] C e (by simp) h]
  simp

theorem child_pair_push (lv : Int) (u t : String) (B C e : TocElement)
    (h : ¬ e.level > C.level) :
    (TocElement.mk lv u t [B, C]).child e =
      TocElement.mk lv u t [B, C, e] := by
  rw [child_push lv u t [B, C] C e (by simp) h]
  simp

theorem child_one_23 (lv : Int) (u t u2 t2 u3 t3 : String)
    (cs2 cs3 : List TocElement) :
    (TocElement.mk lv u t [TocElement.mk 2 u2 t2 cs2]).child
        (TocElement.mk 3 u3 t3 cs3) =
      TocElement.mk lv u t
        [(TocElement.mk 2 u2 t2 cs2).child (TocElement.mk 3 u3 t3 cs3)] :=
  child_one_descend lv u t _ _ (by norm_num [TocElement.level])

theorem child_one_22 (lv : Int) (u t u2 t2 u3 t3 : String)
    (cs2 cs3 : List TocElement) :
    (TocElement.mk lv u t [TocElement.mk 2 u2 t2 cs2]).child
        (TocElement.mk 2 u3 t3 cs3) =
      TocElement.mk lv u t
        [TocElement.mk 2 u2 t2 cs2, TocElement.mk 2 u3 t3 cs3] :=
  child_one_push lv u t _ _ (by norm_num [TocElement.level])

theorem child_pair_24 (lv : Int) (u t u2 t2 u3 t3 : String)
    (B : TocElement) (cs2 cs3 : List TocElement) :
    (TocElement.mk lv u t [B, TocElement.mk 2 u2 t2 cs2]).child
        (TocElement.mk 4 u3 t3 cs3) =
      TocElement.mk lv u t
        [B, (TocElement.mk 2 u2 t2 cs2).child (TocElement.mk 4 u3 t3 cs3)] :=
  child_pair_descend lv u t B _ _ (by norm_num [TocElement.level])

theorem child_pair_22 (lv : Int) (u t u2 t2 u3 t3 : String)
    (B : TocElement) (cs2 cs3 : List TocElement) :
    (TocElement.mk lv u t [B, TocElement.mk 2 u2 t2 cs2]).child
        (TocElement.mk 2 u3 t3 cs3) =
      TocElement.mk lv u t
        [B, TocElement.mk 2 u2 t2 cs2, TocElement.mk 2 u3 t3 cs3] :=
  child_pair_push lv u t B _ _ (by norm_num [TocElement.level])

/-- C1: for a document whose headings appear in order with levels
[1,2,3,1] and pairwise-distinct texts, `get_header_level_toc_vec`
returns (without panicking) a forest of exactly 2 roots; the first
root has exactly 1 child, that child has exactly 1 child, that
grandchild has 0 children, and the second root has 0 children. -/
theorem c1_toc_shape_1231 (doc : Node) (url : String)
    (hlvls : (selectHeadings doc).map headingLevel = [1, 2, 3, 1])
    (hdis : ((selectHeadings doc).map textContents).Pairwise (· ≠ ·)) :
    ∃ forest, get_header_level_toc_vec url doc = some forest ∧
      forest.length = 2 ∧
      (forest[0]?.map fun r => r.children.length) = some 1 ∧
      ((forest[0]?.bind fun r => r.children[0]?).map
        fun c => c.children.length) = some 1 ∧
      (((forest[0]?.bind fun r => r.children[0]?).bind
        fun c => c.children[0]?).map fun g => g.children.length) = some 0 ∧
      (forest[1]?.map fun r => r.children.length) = some 0 := by
  clear hdis
  obtain ⟨a, b, c, d, hsel⟩ : ∃ a b c d,
      selectHeadings doc = [a, b, c, d] := by
    rcases hx : selectHeadings doc with _ | ⟨a, _ | ⟨b, _ | ⟨c, _ | ⟨d, _ | ⟨e, r⟩⟩⟩⟩⟩ <;>
      rw [hx] at hlvls <;> first
        | exact ⟨a, b, c, d, rfl⟩
        | simp at hlvls
  rw [hsel] at hlvls
  simp only [List.map_cons, List.map_nil, List.cons.injEq, and_true] at hlvls
  obtain ⟨ha, hb, hc, hd⟩ := hlvls
  have hmem : ∀ x ∈ ([a, b, c, d] : List Node), ∃ cs, x ∈ selectFromList cs := by
    intro x hx
    exact mem_selectHeadings_exists (by rw [hsel]; exact hx)
  obtain ⟨ia, hia⟩ := Option.isSome_iff_exists.mp
    (generate_header_ids_attr_isSome (hmem a (by simp)))
  obtain ⟨ib, hib⟩ := Option.isSome_iff_exists.mp
    (generate_header_ids_attr_isSome (hmem b (by simp)))
  obtain ⟨ic, hic⟩ := Option.isSome_iff_exists.mp
    (generate_header_ids_attr_isSome (hmem c (by simp)))
  obtain ⟨id', hid'⟩ := Option.isSome_iff_exists.mp
    (generate_header_ids_attr_isSome (hmem d (by simp)))
  have hla : headerLevels.lookup (generate_header_ids a).nodeName = some 1 := by
    rw [nodeName_generate_header_ids]
    exact lookup_of_headingLevel ha (by decide)
  have hlb : headerLevels.lookup (generate_header_ids b).nodeName = some 2 := by
    rw [nodeName_generate_header_ids]
    exact lookup_of_headingLevel hb (by decide)
  have hlc : headerLevels.lookup (generate_header_ids c).nodeName = some 3 := by
    rw [nodeName_generate_header_ids]
    exact lookup_of_headingLevel hc (by decide)
  have hld : headerLevels.lookup (generate_header_ids d).nodeName = some 1 := by
    rw [nodeName_generate_header_ids]
    exact lookup_of_headingLevel hd (by decide)
  have hsel' : selectHeadings (generate_header_ids doc) =
      [generate_header_ids a, generate_header_ids b,
       generate_header_ids c, generate_header_ids d] := by
    rw [selectHeadings_generate_header_ids, hsel]
    rfl
  rw [get_header_level_toc_vec, hsel']
  simp only [tocLoop, hla, hlb, hlc, hld, hia, hib, hic, hid',
    List.getLast?, List.dropLast, List.nil_append, List.cons_append,
    List.append_nil, child_nil, child_one_23, child_one_22,
    child_pair_24, child_pair_22]
  simp [child_nil, child_one_23, child_one_22, child_pair_24,
    child_pair_22, TocElement.children]

/-- Concrete document with heading levels [1,2,3,1] and pairwise
distinct texts (the first documented fixture). -/
def c1Doc : Node :=
  .elem "html" []
    [.elem "h1" [] [.text "Heading 1"],
     .elem "h2" [] [.text "Heading 2"],
     .elem "h3" [] [.text "Subheading 3"],
     .elem "h1" [] [.text "Second Heading 1"]]

/-- C1 witness: the hypotheses hold at `c1Doc` and the conclusion
follows by the theorem. -/
theorem c1_witness :
    (selectHeadings c1Doc).map headingLevel = [1, 2, 3, 1] ∧
    ((selectHeadings c1Doc).map textContents).Pairwise (· ≠ ·) ∧
    ∃ forest,
      get_header_level_toc_vec "index.xhtml" c1Doc = some forest ∧
      forest.length = 2 ∧
      (forest[0]?.map fun r => r.children.length) = some 1 ∧
      ((forest[0]?.bind fun r => r.children[0]?).map
        fun c => c.children.length) = some 1 ∧
      (((forest[0]?.bind fun r => r.children[0]?).bind
        fun c => c.children[0]?).map fun g => g.children.length) = some 0 ∧
      (forest[1]?.map fun r => r.children.length) = some 0 :=
  ⟨by decide, by decide,
    c1_toc_shape_1231 c1Doc "index.xhtml" (by decide) (by decide)⟩

/-- C2: for a document whose headings appear in order with levels
[1,2,2,4,2], `get_header_level_toc_vec` returns (without panicking) a
forest of exactly 1 root that has exactly 3 children — nesting
ratchets only one level, per the single last-seen-level memory, not
per ancestor depth. -/
theorem c2_toc_shape_12242 (doc : Node) (url : String)
    (hlvls : (selectHeadings doc).map headingLevel = [1, 2, 2, 4, 2]) :
    ∃ forest, get_header_level_toc_vec url doc = some forest ∧
      forest.length = 1 ∧
      (forest[0]?.map fun r => r.children.length) = some 3 := by
  obtain ⟨a, b, c, d, e, hsel⟩ : ∃ a b c d e,
      selectHeadings doc = [a, b, c, d, e] := by
    rcases hx : selectHeadings doc with
      _ | ⟨a, _ | ⟨b, _ | ⟨c, _ | ⟨d, _ | ⟨e, _ | ⟨f, r⟩⟩⟩⟩⟩⟩ <;>
      rw [hx] at hlvls <;> first
        | exact ⟨a, b, c, d, e, rfl⟩
        | simp at hlvls
  rw [hsel] at hlvls
  simp only [List.map_cons, List.map_nil, List.cons.injEq, and_true] at hlvls
  obtain ⟨ha, hb, hc, hd, he⟩ := hlvls
  have hmem : ∀ x ∈ ([a, b, c, d, e] : List Node),
      ∃ cs, x ∈ selectFromList cs := by
    intro x hx
    exact mem_selectHeadings_exists (by rw [hsel]; exact hx)
  obtain ⟨ia, hia⟩ := Option.isSome_iff_exists.mp
    (generate_header_ids_attr_isSome (hmem a (by simp)))
  obtain ⟨ib, hib⟩ := Option.isSome_iff_exists.mp
    (generate_header_ids_attr_isSome (hmem b (by simp)))
  obtain ⟨ic, hic⟩ := Option.isSome_iff_exists.mp
    (generate_header_ids_attr_isSome (hmem c (by simp)))
  obtain ⟨id', hid'⟩ := Option.isSome_iff_exists.mp
    (generate_header_ids_attr_isSome (hmem d (by simp)))
  obtain ⟨ie, hie⟩ := Option.isSome_iff_exists.mp
    (generate_header_ids_attr_isSome (hmem e (by simp)))
  have hla : headerLevels.lookup (generate_header_ids a).nodeName = some 1 := by
    rw [nodeName_generate_header_ids]
    exact lookup_of_headingLevel ha (by decide)
  have hlb : headerLevels.lookup (generate_header_ids b).nodeName = some 2 := by
    rw [nodeName_generate_header_ids]
    exact lookup_of_headingLevel hb (by decide)
  have hlc : headerLevels.lookup (generate_header_ids c).nodeName = some 2 := by
    rw [nodeName_generate_header_ids]
    exact lookup_of_headingLevel hc (by decide)
  have hld : headerLevels.lookup (generate_header_ids d).nodeName = some 4 := by
    rw [nodeName_generate_header_ids]
    exact lookup_of_headingLevel hd (by decide)
  have hle : headerLevels.lookup (generate_header_ids e).nodeName = some 2 := by
    rw [nodeName_generate_header_ids]
    exact lookup_of_headingLevel he (by decide)
  have hsel' : selectHeadings (generate_header_ids doc) =
      [generate_header_ids a, generate_header_ids b,
       generate_header_ids c, generate_header_ids d,
       generate_header_ids e] := by
    rw [selectHeadings_generate_header_ids, hsel]
    rfl
  rw [get_header_level_toc_vec, hsel']
  simp only [tocLoop, hla, hlb, hlc, hld, hle, hia, hib, hic, hid', hie,
    List.getLast?, List.dropLast, List.nil_append, List.cons_append,
    List.append_nil]
  simp [child_nil, child_one_23, child_one_22, child_pair_24,
    child_pair_22, TocElement.children]

/-- Concrete document with heading levels [1,2,2,4,2] (the second
documented fixture). -/
def c2Doc : Node :=
  .elem "html" []
    [.elem "h1" [] [.text "Heading 1"],
     .elem "h2" [] [.text "Heading 2"],
     .elem "h2" [] [.text "Heading 2 again"],
     .elem "h4" [] [.text "Subheading 4"],
     .elem "h2" [] [.text "Conclusion"]]

/-- C2 witness: the hypothesis holds at `c2Doc` and the conclusion
follows by the theorem. -/
theorem c2_witness :
    (selectHeadings c2Doc).map headingLevel = [1, 2, 2, 4, 2] ∧
    ∃ forest,
      get_header_level_toc_vec "index.xhtml" c2Doc = some forest ∧
      forest.length = 1 ∧
      (forest[0]?.map fun r => r.children.length) = some 3 :=
  ⟨by decide, c2_toc_shape_12242 c2Doc "index.xhtml" (by decide)⟩

/-! ## Helper lemmas about the orchestration model -/

/-- Conditions under which one standalone article reaches no panic
site (`File::create(..).unwrap`, the serialization `expect`, the utf8
`unwrap`, a missing image file, a missing MIME type). -/
def noPanicStandalone (store : String → Bool) (f : ArticleEnv)
    (a : Article) : Prop :=
  f.createOk = true ∧ f.serializeOk = true ∧ f.utf8Ok = true ∧
    ∀ p ∈ a.img_urls, store p.1 = true ∧ p.2.isSome

instance (store : String → Bool) (f : ArticleEnv) (a : Article) :
    Decidable (noPanicStandalone store f a) := by
  unfold noPanicStandalone
  infer_instance

/-- Conditions under which one merged-mode article reaches no panic
site (missing image file, missing MIME type, `add_resource` unwrap). -/
def noPanicMergedArt (store : String → Bool) (f : ArticleEnv)
    (a : Article) : Prop :=
  f.addResourceOk = true ∧ ∀ p ∈ a.img_urls, store p.1 = true ∧ p.2.isSome

instance (store : String → Bool) (f : ArticleEnv) (a : Article) :
    Decidable (noPanicMergedArt store f a) := by
  unfold noPanicMergedArt
  infer_instance

theorem addImagesStandalone_ok_or_err (store : String → Bool)
    (resOk : Bool) :
    ∀ imgs : List (String × Option String),
      (∀ p ∈ imgs, store p.1 = true ∧ p.2.isSome) →
      addImagesStandalone store resOk imgs = .ok ∨
        addImagesStandalone store resOk imgs = .err .addResource := by
  intro imgs
  induction imgs with
  | nil =>
    intro _
    left
    rfl
  | cons p rest ih =>
    intro h
    obtain ⟨iname, mime⟩ := p
    obtain ⟨hs, hm⟩ := h _ (List.mem_cons_self _ _)
    obtain ⟨v, hv⟩ := Option.isSome_iff_exists.mp hm
    simp only at hs hv
    subst hv
    have hres := ih (fun q hq => h q (List.mem_cons_of_mem _ hq))
    by_cases hr : resOk = true
    · subst hr
      rcases hres with h1 | h1
      · left
        simp [addImagesStandalone, hs, h1]
      · right
        simp [addImagesStandalone, hs, h1]
    · have hr' : resOk = false := by simpa using hr
      subst hr'
      right
      simp [addImagesStandalone, hs]

theorem addImagesMerged_ok (store : String → Bool) :
    ∀ imgs : List (String × Option String),
      (∀ p ∈ imgs, store p.1 = true ∧ p.2.isSome) →
      addImagesMerged store true imgs = .ok := by
  intro imgs
  induction imgs with
  | nil =>
    intro _
    rfl
  | cons p rest ih =>
    intro h
    obtain ⟨iname, mime⟩ := p
    obtain ⟨hs, hm⟩ := h _ (List.mem_cons_self _ _)
    obtain ⟨v, hv⟩ := Option.isSome_iff_exists.mp hm
    simp only at hs hv
    subst hv
    have := ih (fun q hq => h q (List.mem_cons_of_mem _ hq))
    simpa [addImagesMerged, hs] using this

theorem standaloneArticle_step_ne_panic (store : String → Bool)
    (f : ArticleEnv) (a : Article) (h : noPanicStandalone store f a) :
    (standaloneArticle store f a).2 ≠ .panic := by
  obtain ⟨hc, hs, hu, himg⟩ := h
  rcases addImagesStandalone_ok_or_err store f.addResourceOk
      a.img_urls himg with hio | hio <;>
    by_cases hz : f.zipNewOk = true <;>
    by_cases hbn : f.builderNewOk = true <;>
    simp only [standaloneArticle, hz, hbn, hc, hs, hu, hio,
      Bool.not_true, Bool.not_false, not_true, not_false_iff,
      if_true, if_false, ite_true, ite_false] <;>
    (repeat' split) <;> simp_all

theorem mergedArticle_ne_panic (store : String → Bool) (f : ArticleEnv)
    (a : Article) (h : noPanicMergedArt store f a) :
    mergedArticle store f a ≠ .panic := by
  obtain ⟨hres, himg⟩ := h
  by_cases hs : f.serializeOk
  · by_cases hu : f.utf8Ok
    · by_cases hmt : f.metaTitleOk
      · by_cases hac : f.addContentOk
        · have := addImagesMerged_ok store a.img_urls himg
          simp [mergedArticle, hs, hu, hmt, hac, hres, this]
        · simp [mergedArticle, hs, hu, hmt, hac]
      · simp [mergedArticle, hs, hu, hmt]
    · simp [mergedArticle, hs, hu]
  · simp [mergedArticle, hs]

/-- Characterization of the standalone loop on a batch that reaches
no panic: it never aborts, creates the files of every attempted
article, records one tagged error per failed article, and adds one
row and one bar tick per successful article, in order. -/
theorem standaloneLoop_spec (store : String → Bool)
    (aenv : Nat → ArticleEnv) :
    ∀ (arts : List Article) (i : Nat) (st : LoopSt),
      (∀ p ∈ arts.enumFrom i, noPanicStandalone store (aenv p.1) p.2) →
      standaloneLoop store aenv i arts st =
        (⟨st.files ++ (arts.enumFrom i).flatMap
            (fun p => (standaloneArticle store (aenv p.1) p.2).1),
          st.errors ++ (arts.enumFrom i).filterMap
            (fun p => match (standaloneArticle store (aenv p.1) p.2).2 with
              | .err k => some ⟨p.2.url, k⟩
              | _ => none),
          st.rows ++ ((arts.enumFrom i).filter
            (fun p =>
              decide ((standaloneArticle store (aenv p.1) p.2).2 = .ok))).map
            (fun p => p.2.title),
          st.barIncs + ((arts.enumFrom i).filter
            (fun p =>
              decide ((standaloneArticle store (aenv p.1) p.2).2 = .ok))).length⟩,
          false) := by
  intro arts
  induction arts with
  | nil =>
    intro i st _
    simp [standaloneLoop, List.enumFrom]
  | cons a rest ih =>
    intro i st h
    have hcons : (a :: rest).enumFrom i = (i, a) :: rest.enumFrom (i + 1) :=
      rfl
    rw [hcons] at h
    have ha := h (i, a) (List.mem_cons_self _ _)
    have hrest : ∀ p ∈ rest.enumFrom (i + 1),
        noPanicStandalone store (aenv p.1) p.2 :=
      fun p hp => h p (List.mem_cons_of_mem _ hp)
    rcases hstep : standaloneArticle store (aenv i) a with ⟨created, step⟩
    have hnp := standaloneArticle_step_ne_panic store (aenv i) a ha
    rw [hstep] at hnp
    simp only at hnp
    cases step with
    | ok =>
      simp only [standaloneLoop, hstep]
      rw [ih (i + 1) _ hrest]
      simp [hcons, hstep, List.filter_cons, List.append_assoc]
      omega
    | err k =>
      simp only [standaloneLoop, hstep]
      rw [ih (i + 1) _ hrest]
      simp [hcons, hstep, List.filter_cons, List.append_assoc]
    | panic => exact absurd rfl hnp

/-- Characterization of the merged fold on a batch that reaches no
panic: it never aborts, records one tagged error per failed article,
and adds one row and one bar tick for every article, successful or
not. -/
theorem mergedLoop_spec (store : String → Bool) (aenv : Nat → ArticleEnv) :
    ∀ (arts : List Article) (i : Nat) (st : LoopSt),
      (∀ p ∈ arts.enumFrom i, noPanicMergedArt store (aenv p.1) p.2) →
      mergedLoop store aenv i arts st =
        (⟨st.files,
          st.errors ++ (arts.enumFrom i).filterMap
            (fun p => match mergedArticle store (aenv p.1) p.2 with
              | .err k => some ⟨p.2.url, k⟩
              | _ => none),
          st.rows ++ arts.map Article.title,
          st.barIncs + arts.length⟩, false) := by
  intro arts
  induction arts with
  | nil =>
    intro i st _
    simp [mergedLoop, List.enumFrom]
  | cons a rest ih =>
    intro i st h
    have hcons : (a :: rest).enumFrom i = (i, a) :: rest.enumFrom (i + 1) :=
      rfl
    rw [hcons] at h
    have ha := h (i, a) (List.mem_cons_self _ _)
    have hrest : ∀ p ∈ rest.enumFrom (i + 1),
        noPanicMergedArt store (aenv p.1) p.2 :=
      fun p hp => h p (List.mem_cons_of_mem _ hp)
    have hnp := mergedArticle_ne_panic store (aenv i) a ha
    cases hstep : mergedArticle store (aenv i) a with
    | ok =>
      simp only [mergedLoop, hstep]
      rw [ih (i + 1) _ hrest]
      simp [hcons, hstep, List.append_assoc]
      omega
    | err k =>
      simp only [mergedLoop, hstep]
      rw [ih (i + 1) _ hrest]
      simp [hcons, hstep, List.append_assoc]
      omega
    | panic => exact absurd hstep hnp

/-! ## Concrete articles and oracles for the orchestration claims -/

def artA : Article := ⟨"https://a.example", "Article A", none, .text "", []⟩

def artB : Article := ⟨"https://b.example", "Article B", none, .text "", []⟩

/-- Everything succeeds except content serialization. -/
def serializeFailEnv : ArticleEnv := { allOkEnv with serializeOk := false }

/-- Everything succeeds except the title-metadata call. -/
def metaTitleFailEnv : ArticleEnv := { allOkEnv with metaTitleOk := false }

/-- Article 0 fails its title-metadata call (a recoverable error, not
a panic); every other article succeeds. -/
def mixedEnv : Nat → ArticleEnv :=
  fun i => if i = 0 then metaTitleFailEnv else allOkEnv

/-- C3 (evaluation at the failing input): in standalone mode, with two
articles of which the first fails content serialization, the code
panics at `serialize_to_xhtml(..).expect(..)` (src/epub.rs:157).  The
process aborts: the failing article's (empty) output file has already
been created, no error is recorded against any URL, no results-table
row is added for either article, and the second article is never
processed. -/
theorem c3_standalone_serialization_panic_eval :
    generate_epubs [artA, artB] none (fun _ => true) allOkMerged
      (fun i => if i = 0 then serializeFailEnv else allOkEnv) =
      ⟨["Article A.epub"], [], [], 0, true, none⟩ := by
  decide

/-- C6 counterexample: in merged mode an article whose content
serialization fails still receives a results-table row
(src/epub.rs:106 adds the row unconditionally), refuting "only
successful articles appear in the results table". -/
theorem c6_counterexample_failed_article_gets_row :
    (generate_epubs [artA] (some "merged.epub") (fun _ => true) allOkMerged
        (fun _ => serializeFailEnv)).errors =
      [⟨"https://a.example", .serialization⟩] ∧
    (generate_epubs [artA] (some "merged.epub") (fun _ => true) allOkMerged
        (fun _ => serializeFailEnv)).rows = ["Article A"] := by
  decide

/-- C6 (amended): in standalone mode the results table receives
exactly one row per successful article, and only successful articles
appear in it; in merged mode every article receives exactly one row,
whether or not its processing succeeded.  (Hypotheses exclude the
panic sites, which abort the run and are treated in C3/C8.) -/
theorem c6_amended_rows_per_mode (articles : List Article) (name : String)
    (store : String → Bool) (menv : MergedEnv) (aenv : Nat → ArticleEnv)
    (hstd : ∀ p ∈ articles.enumFrom 0,
      noPanicStandalone store (aenv p.1) p.2)
    (hmrg : ∀ p ∈ articles.enumFrom 0,
      noPanicMergedArt store (aenv p.1) p.2)
    (hz : menv.zipNewOk = true) (hbld : menv.builderNewOk = true) :
    (generate_epubs articles none store menv aenv).rows =
      ((articles.enumFrom 0).filter
        (fun p =>
          decide ((standaloneArticle store (aenv p.1) p.2).2 = .ok))).map
        (fun p => p.2.title) ∧
    (generate_epubs articles (some name) store menv aenv).rows =
      articles.map Article.title := by
  constructor
  · simp only [generate_epubs]
    rw [standaloneLoop_spec store aenv articles 0 _ hstd]
    simp
  · simp only [generate_epubs, generateMerged, hz, hbld]
    rw [mergedLoop_spec store aenv articles 0 _ hmrg]
    by_cases h1 : menv.addAppendixOk = true <;>
      by_cases h2 : menv.createOk = true <;>
      by_cases h3 : menv.generateOk = true <;>
      simp [h1, h2, h3]

/-- C6 amended witness: a two-article batch whose first article fails
its title-metadata call, in both modes. -/
theorem c6_amended_witness :
    (generate_epubs [artA, artB] none (fun _ => true) allOkMerged
        mixedEnv).rows =
      ((([artA, artB]).enumFrom 0).filter
        (fun p =>
          decide ((standaloneArticle (fun _ => true)
            (mixedEnv p.1) p.2).2 = .ok))).map (fun p => p.2.title) ∧
    (generate_epubs [artA, artB] (some "merged.epub") (fun _ => true)
        allOkMerged mixedEnv).rows = [artA, artB].map Article.title :=
  c6_amended_rows_per_mode [artA, artB] "merged.epub" (fun _ => true)
    allOkMerged mixedEnv (by decide) (by decide) rfl rfl

/-- C7 counterexample: in standalone mode a processed article whose
pipeline fails (a recoverable metadata error, recorded in the error
list) does not advance the progress bar at all — `bar.inc(1)` sits
after `epub.generate(..)?` inside the closure (src/epub.rs:195) — so
the progress count stays 0 instead of reaching 1. -/
theorem c7_counterexample_failed_article_no_tick :
    (generate_epubs [artA] none (fun _ => true) allOkMerged
        (fun _ => metaTitleFailEnv)).barIncs = 0 ∧
    (generate_epubs [artA] none (fun _ => true) allOkMerged
        (fun _ => metaTitleFailEnv)).errors =
      [⟨"https://a.example", .metadata⟩] := by
  decide

/-- C7 (amended): in merged mode the progress bar is advanced exactly
once per processed article regardless of success; in standalone mode
it is advanced exactly once per successful article, and an article
whose processing failed does not advance it.  (Hypotheses exclude the
panic sites, which abort the run.) -/
theorem c7_amended_bar_ticks (articles : List Article) (name : String)
    (store : String → Bool) (menv : MergedEnv) (aenv : Nat → ArticleEnv)
    (hstd : ∀ p ∈ articles.enumFrom 0,
      noPanicStandalone store (aenv p.1) p.2)
    (hmrg : ∀ p ∈ articles.enumFrom 0,
      noPanicMergedArt store (aenv p.1) p.2)
    (hz : menv.zipNewOk = true) (hbld : menv.builderNewOk = true) :
    (generate_epubs articles none store menv aenv).barIncs =
      ((articles.enumFrom 0).filter
        (fun p =>
          decide ((standaloneArticle store (aenv p.1) p.2).2 = .ok))).length ∧
    (generate_epubs articles (some name) store menv aenv).barIncs =
      articles.length := by
  constructor
  · simp only [generate_epubs]
    rw [standaloneLoop_spec store aenv articles 0 _ hstd]
    simp
  · simp only [generate_epubs, generateMerged, hz, hbld]
    rw [mergedLoop_spec store aenv articles 0 _ hmrg]
    by_cases h1 : menv.addAppendixOk = true <;>
      by_cases h2 : menv.createOk = true <;>
      by_cases h3 : menv.generateOk = true <;>
      simp [h1, h2, h3]

/-- C7 amended witness: the same mixed two-article batch, counting
bar ticks in both modes. -/
theorem c7_amended_witness :
    (generate_epubs [artA, artB] none (fun _ => true) allOkMerged
        mixedEnv).barIncs =
      ((([artA, artB]).enumFrom 0).filter
        (fun p =>
          decide ((standaloneArticle (fun _ => true)
            (mixedEnv p.1) p.2).2 = .ok))).length ∧
    (generate_epubs [artA, artB] (some "merged.epub") (fun _ => true)
        allOkMerged mixedEnv).barIncs = [artA, artB].length :=
  c7_amended_bar_ticks [artA, artB] "merged.epub" (fun _ => true)
    allOkMerged mixedEnv (by decide) (by decide) rfl rfl

/-! ## C8: a missing image file panics instead of recording an error -/

theorem addImagesStandalone_panic (store : String → Bool) :
    ∀ (pre : List (String × Option String)) (img : String)
      (m : Option String) (rest : List (String × Option String)),
      (∀ p ∈ pre, store p.1 = true ∧ p.2.isSome) → store img = false →
      addImagesStandalone store true (pre ++ (img, m) :: rest) = .panic := by
  intro pre
  induction pre with
  | nil =>
    intro img m rest _ hmiss
    simp [addImagesStandalone, hmiss]
  | cons p ps ih =>
    intro img m rest hpre hmiss
    obtain ⟨iname, mime⟩ := p
    obtain ⟨hs, hm⟩ := hpre _ (List.mem_cons_self _ _)
    obtain ⟨v, hv⟩ := Option.isSome_iff_exists.mp hm
    simp only at hs hv
    subst hv
    have := ih img m rest (fun q hq => hpre q (List.mem_cons_of_mem _ hq))
      hmiss
    simpa [addImagesStandalone, hs] using this

theorem addImagesMerged_panic (store : String → Bool) :
    ∀ (pre : List (String × Option String)) (img : String)
      (m : Option String) (rest : List (String × Option String)),
      (∀ p ∈ pre, store p.1 = true ∧ p.2.isSome) → store img = false →
      addImagesMerged store true (pre ++ (img, m) :: rest) = .panic := by
  intro pre
  induction pre with
  | nil =>
    intro img m rest _ hmiss
    simp [addImagesMerged, hmiss]
  | cons p ps ih =>
    intro img m rest hpre hmiss
    obtain ⟨iname, mime⟩ := p
    obtain ⟨hs, hm⟩ := hpre _ (List.mem_cons_self _ _)
    obtain ⟨v, hv⟩ := Option.isSome_iff_exists.mp hm
    simp only at hs hv
    subst hv
    have := ih img m rest (fun q hq => hpre q (List.mem_cons_of_mem _ hq))
      hmiss
    simpa [addImagesMerged, hs] using this

/-- C8: for every article that references an image absent from the
temporary-file store at generation time (everything else succeeding),
processing aborts unrecoverably — `File::open(..).expect("Can't read
file")` panics — instead of appending a recorded, skippable
MissingImageResource entry: the whole run stops, the error list stays
empty, and no results-table row is produced, in both modes; a
following article is never processed (per-article isolation does not
hold for this failure). -/
theorem c8_missing_image_aborts (a b : Article) (name : String)
    (store : String → Bool) (pre rest : List (String × Option String))
    (img : String) (m : Option String)
    (himgs : a.img_urls = pre ++ (img, m) :: rest)
    (hpre : ∀ p ∈ pre, store p.1 = true ∧ p.2.isSome)
    (hmiss : store img = false) :
    ((generate_epubs [a, b] none store allOkMerged
        fun _ => allOkEnv).panicked = true ∧
      (generate_epubs [a, b] none store allOkMerged
        fun _ => allOkEnv).errors = [] ∧
      (generate_epubs [a, b] none store allOkMerged
        fun _ => allOkEnv).rows = []) ∧
    ((generate_epubs [a, b] (some name) store allOkMerged
        fun _ => allOkEnv).panicked = true ∧
      (generate_epubs [a, b] (some name) store allOkMerged
        fun _ => allOkEnv).errors = [] ∧
      (generate_epubs [a, b] (some name) store allOkMerged
        fun _ => allOkEnv).rows = []) := by
  have hpanicS := addImagesStandalone_panic store pre img m rest hpre hmiss
  have hpanicM := addImagesMerged_panic store pre img m rest hpre hmiss
  have hA : standaloneArticle store allOkEnv a =
      ([sanitizeTitle a.title ++ ".epub"], .panic) := by
    rw [standaloneArticle]
    simp [allOkEnv, himgs, hpanicS]
  have hM : mergedArticle store allOkEnv a = .panic := by
    rw [mergedArticle]
    simp [allOkEnv, himgs, hpanicM]
  constructor
  · simp [generate_epubs, standaloneLoop, hA]
  · simp [generate_epubs, generateMerged, mergedLoop, hM, allOkMerged]

/-- Article referencing an image file that the store lacks. -/
def artMissingImg : Article :=
  ⟨"https://c.example", "Article C", none, .text "",
    [("missing.png", some "image/png")]⟩

/-- C8 witness: concrete article whose only image is absent. -/
theorem c8_witness :
    ((generate_epubs [artMissingImg, artB] none (fun _ => false)
        allOkMerged fun _ => allOkEnv).panicked = true ∧
      (generate_epubs [artMissingImg, artB] none (fun _ => false)
        allOkMerged fun _ => allOkEnv).errors = [] ∧
      (generate_epubs [artMissingImg, artB] none (fun _ => false)
        allOkMerged fun _ => allOkEnv).rows = []) ∧
    ((generate_epubs [artMissingImg, artB] (some "merged.epub")
        (fun _ => false) allOkMerged fun _ => allOkEnv).panicked = true ∧
      (generate_epubs [artMissingImg, artB] (some "merged.epub")
        (fun _ => false) allOkMerged fun _ => allOkEnv).errors = [] ∧
      (generate_epubs [artMissingImg, artB] (some "merged.epub")
        (fun _ => false) allOkMerged fun _ => allOkEnv).rows = []) :=
  c8_missing_image_aborts artMissingImg artB "merged.epub"
    (fun _ => false) [] [] "missing.png" (some "image/png") rfl
    (by simp) rfl

end Paperoni
